import Mathlib

/-!
Verification of the folio test runner against its specification.

The development shallowly embeds the TypeScript sources:
`src/cli.ts`, `src/reporters/junit.ts` and `src/reporters/service.ts`.
Components of the runner whose sources are not available here (the worker
runtime and the test generator) are modelled from the specification, and
each such definition is marked in its doc comment.

JavaScript numbers are embedded as Nat or Int; JavaScript strings as
String or List Char; undefined or uninitialized values as Option; code
that throws as Except. Node library calls (path handling, parseInt,
String.split) are embedded by small executable functions mirroring their
behaviour on the inputs the program feeds them.
-/

namespace Folio

/-! ## CLI exit disposition (src/cli.ts, runTests, lines 131-147) -/

/-- Possible results of runner.run as consumed by runTests. -/
inductive RunResult where
  | passed
  | failed
  | sigint
  | forbidOnly
  | noTests
deriving DecidableEq, Repr

/-- Embedding of the tail of runTests: the chain of result checks that pick
the process exit code (cli.ts lines 131-147). -/
def exitCodeOfResult (result : RunResult) : Nat :=
  if result = RunResult.sigint then 130
  else if result = RunResult.forbidOnly then 1
  else if result = RunResult.noTests then 1
  else if result = RunResult.failed then 1 else 0

/-! ## CLI shard option (src/cli.ts, lines 62-66) and the shard filter -/

/-- Embedding of the JavaScript split of a string on a one-character
separator, accumulating the current piece. -/
def jsSplitGo (sep : Char) : List Char → List Char → List (List Char)
  | [], acc => [acc.reverse]
  | c :: rest, acc =>
    if c = sep then acc.reverse :: jsSplitGo sep rest []
    else jsSplitGo sep rest (c :: acc)

/-- JavaScript String.split with a one-character separator. -/
def jsSplit (sep : Char) (s : String) : List String :=
  (jsSplitGo sep s.data []).map String.mk

/-- Numeric value of a list of decimal digits. -/
def digitsVal (l : List Char) : Nat :=
  l.foldl (fun acc c => acc * 10 + (Char.toNat c - Char.toNat '0')) 0

/-- Embedding of JavaScript parseInt(t, 10) on the pieces the CLI feeds it:
the maximal leading run of decimal digits is parsed, and none stands for
NaN when there is no digit. -/
def parseIntDecimal (s : String) : Option Nat :=
  let ds := s.data.takeWhile Char.isDigit
  if ds.isEmpty then none else some (digitsVal ds)

/-- The shard configuration value: config.shard. -/
structure Shard where
  current : Int
  total : Int
deriving DecidableEq, Repr

/-- Embedding of cli.ts lines 62-66: the --shard value is split on a slash,
both pieces are parsed as decimal integers, and the 1-based selector is
converted to a 0-based current index. A NaN piece is embedded as none. -/
def parseShard (s : String) : Option Shard :=
  match (jsSplit '/' s).map parseIntDecimal with
  | some c :: some t :: _ => some { current := (c : Int) - 1, total := (t : Int) }
  | _ => none

/-- Modelled from the spec: the test generator (not among the provided
sources) applies the shard filter last, keeping only tests whose global
index, counted after the focus, skip, grep and name filters, satisfies
index % total == current. -/
def shardFilterGo (sh : Shard) : Nat → List α → List α
  | _, [] => []
  | i, x :: xs =>
    if (i : Int) % sh.total = sh.current then x :: shardFilterGo sh (i + 1) xs
    else shardFilterGo sh (i + 1) xs

/-- Modelled from the spec: the shard filter over the whole ordered test
list, indices starting at 0. -/
def shardFilter (sh : Shard) (tests : List α) : List α :=
  shardFilterGo sh 0 tests

/-! ## Worker-side status computation -/

/-- Status of one test result. -/
inductive TestStatus where
  | passed
  | failed
  | timedOut
  | skipped
deriving DecidableEq, Repr

/-- Modelled from the spec: the worker runtime (not among the provided
sources) derives the status of a run in section 4.5 step f: a cancelled
timer gives timedOut; otherwise an observed skip gives skipped; otherwise
an error gives failed, inverted to passed under expectedToFail; otherwise
passed, inverted to failed under expectedToFail. -/
def computeStatus (cancelledByTimeout skipObserved hasError expectedToFail : Bool) : TestStatus :=
  if cancelledByTimeout then TestStatus.timedOut
  else if skipObserved then TestStatus.skipped
  else if hasError then
    (if expectedToFail then TestStatus.passed else TestStatus.failed)
  else
    (if expectedToFail then TestStatus.failed else TestStatus.passed)

/-! ## Worker-side hook execution

The worker runtime is not among the provided sources; the model below
follows the specification, sections 3 and 4.5: env beforeAll then user
beforeAll run first; per test, env beforeEach then ancestor beforeEach
run outermost-first; the body runs unless a before hook recorded an
error; cleanup hooks form a stack (user afterEach above env afterEach,
user afterAll above env afterAll) drained in reverse, every entry running
even after earlier errors, with the first error collected. -/

/-- One hook: its log label and whether its execution throws. -/
abbrev Hook := String × Bool

/-- Lifecycle operations exposed by a declared env. -/
structure EnvDecl where
  beforeAll : List Hook
  beforeEach : List Hook
  afterEach : List Hook
  afterAll : List Hook

/-- User hooks of one suite, each list in registration order. -/
structure SuiteDecl where
  beforeAll : List Hook
  beforeEach : List Hook
  afterEach : List Hook
  afterAll : List Hook

/-- Execution state threaded through the worker: the log of hook labels in
execution order, and the first error encountered. -/
structure ExecState where
  log : List String
  firstError : Option String
deriving DecidableEq, Repr

/-- Modelled from the spec: run one hook; it always executes and appends
its label, and its error is kept only when it is the first. -/
def runHook (st : ExecState) (h : Hook) : ExecState :=
  { log := st.log ++ [h.1],
    firstError :=
      match st.firstError with
      | some e => some e
      | none => if h.2 then some h.1 else none }

/-- Run a list of hooks in order; all of them run, errors are collected. -/
def runHooks (st : ExecState) (hs : List Hook) : ExecState :=
  hs.foldl runHook st

/-- Labels of a hook list. -/
def labelsOf (hs : List Hook) : List String :=
  hs.map Prod.fst

/-- Modelled from the spec: execution of a single-test group in a worker
(section 4.5). Env beforeAll then each ancestor suite beforeAll run in
order; env beforeEach then ancestor beforeEach run outermost-first; the
body runs only when no before hook recorded an error; afterEach hooks
(env entries pushed first, then each suite outermost to innermost) are
drained as a stack, so user afterEach run innermost-first and env
afterEach after all of them, every one running even after a failure;
afterAll hooks are drained the same way at the end of the group. -/
def runTestInWorker (env : EnvDecl) (suites : List SuiteDecl) (body : Hook) : ExecState :=
  let st1 := runHooks { log := [], firstError := none }
    (env.beforeAll ++ (suites.map SuiteDecl.beforeAll).flatten)
  let st2 := runHooks st1
    (env.beforeEach ++ (suites.map SuiteDecl.beforeEach).flatten)
  let st3 := if st2.firstError.isSome then st2 else runHook st2 body
  let st4 := runHooks st3
    ((env.afterEach ++ (suites.map SuiteDecl.afterEach).flatten).reverse)
  runHooks st4 ((env.afterAll ++ (suites.map SuiteDecl.afterAll).flatten).reverse)

/-- Env of the spec scenario: beforeAll yields w = 17, beforeEach yields
t = 42, with afterEach and afterAll teardown. -/
def envEx : EnvDecl :=
  { beforeAll := [("+w", false)], beforeEach := [("+t", false)],
    afterEach := [("-t", false)], afterAll := [("-w", false)] }

/-- Suite of the spec scenario with user hooks logging the env state. -/
def suiteEx : SuiteDecl :=
  { beforeAll := [("beforeAll-17", false)], beforeEach := [("beforeEach-42", false)],
    afterEach := [("afterEach-42", false)], afterAll := [("afterAll-17", false)] }

/-! ## Shared path helpers -/

/-- Embedding of Node path.relative for the POSIX paths the program feeds
it: when the file lies under the base directory, the suffix after the base
and its slash; otherwise the file unchanged. -/
def pathRelative (base file : String) : String :=
  if (base ++ "/").data.isPrefixOf file.data then String.mk (file.data.drop (base.length + 1))
  else file

/-- Embedding of Node path.basename for POSIX paths: the part after the
last slash. -/
def pathBasename (p : String) : String :=
  String.mk ((p.data.reverse.takeWhile fun c => c ≠ '/').reverse)

/-! ## Service reporter (src/reporters/service.ts) -/

/-- Embedding of JavaScript String.replace with a one-character string
pattern: only the first occurrence is replaced. -/
def replaceFirstChar : List Char → Char → Char → List Char
  | [], _, _ => []
  | c :: rest, pat, rep =>
    if c = pat then rep :: rest else c :: replaceFirstChar rest pat rep

/-- The slugging the specification asks for: every space of the full title
becomes a dash. -/
def slugAllSpaces (s : String) : String :=
  String.mk (s.data.map fun c => if c = ' ' then '-' else c)

/-- Embedding of JavaScript String.split on a multi-character separator,
with fuel bounded by the scanned list. -/
def splitOnSeqGo (sep : List Char) : Nat → List Char → List Char → List (List Char)
  | _, [], acc => [acc.reverse]
  | 0, l, acc => [acc.reverse ++ l]
  | fuel + 1, c :: rest, acc =>
    if sep.isPrefixOf (c :: rest) then
      acc.reverse :: splitOnSeqGo sep fuel ((c :: rest).drop sep.length) []
    else splitOnSeqGo sep fuel rest (c :: acc)

/-- JavaScript String.split with a non-empty string separator. -/
def jsSplitSeq (sep : String) (s : String) : List String :=
  (splitOnSeqGo sep.data s.data.length s.data []).map String.mk

/-- Reporter-relevant slice of the resolved config. -/
structure ServiceConfig where
  testDir : String
  outputDir : String

/-- Reporter-relevant slice of one Test. -/
structure ServiceTest where
  file : String
  fullTitle : String
  browserName : String

namespace ServiceReporter

/-- Embedding of ServiceReporter._getTestOutputDir (service.ts lines
122-126): outputDir, the test file relative to testDir with its last 8
characters removed, the full title with replace of a space by a dash, and
the browserName variation. -/
def getTestOutputDir (cfg : ServiceConfig) (t : ServiceTest) : String :=
  let testFileName := pathRelative cfg.testDir t.file
  cfg.outputDir ++ "/" ++ String.mk (testFileName.data.take (testFileName.length - 8)) ++ "/" ++
    String.mk (replaceFirstChar t.fullTitle.data ' ' '-') ++ "/" ++ t.browserName

/-- Embedding of ServiceReporter._getSasUriForBlob (service.ts lines
236-239): the read token is split on the marker ?sv and the blob path is
spliced between the two pieces; a missing second piece renders as the
string undefined, as the template literal does. -/
def getSasUriForBlob (readSasToken filePath : String) : String :=
  match jsSplitSeq "?sv" readSasToken with
  | a :: b :: _ => a ++ "/" ++ filePath ++ "?sv" ++ b
  | [a] => a ++ "/" ++ filePath ++ "?sv" ++ "undefined"
  | [] => "undefined" ++ "/" ++ filePath ++ "?sv" ++ "undefined"

/-- Embedding of ServiceReporter._getTestResultBlobs (service.ts lines
230-234): the local testResultBlobs is declared without an initializer, so
it holds undefined (none) when push is invoked on it, which throws a
TypeError before any uri is produced. -/
def getTestResultBlobs (githubRunId readSasToken : String) : Except String (List String) :=
  let testResultBlobs : Option (List String) := none
  match testResultBlobs with
  | none => Except.error "TypeError: Cannot read properties of undefined (reading push)"
  | some blobs =>
    Except.ok (blobs ++ [getSasUriForBlob readSasToken (githubRunId ++ "/testResults.zip")])

/-- Embedding of getSasToken (service.ts lines 257-276). The https request
registers a data callback that assigns the parsed sasUri to the local
sasToken; req.end only queues the request, so the callback runs on a later
event-loop turn. The first component is the value the function returns
synchronously; the second is the queue of data events still pending at
that moment. -/
def getSasToken (responseSasUri : String) : Option String × List String :=
  let sasToken : Option String := none
  let pendingDataEvents : List String := [responseSasUri]
  (sasToken, pendingDataEvents)

/-- Delivery of the pending data events after the surrounding call has
already returned: each event assigns the parsed sasUri. -/
def deliverPendingData (call : Option String × List String) : Option String :=
  call.2.foldl (fun _ d => some d) call.1

/-- Embedding of ServiceReporter.onBegin (service.ts lines 87-95) restricted
to the token fields: both cached tokens receive the synchronous return
value of getSasToken. -/
def onBeginCachedTokens (writeResponseUri readResponseUri : String) :
    Option String × Option String :=
  ((getSasToken writeResponseUri).1, (getSasToken readResponseUri).1)

end ServiceReporter

/-! ## JUnit reporter (src/reporters/junit.ts) -/

/-- Attribute values of the XML entries: strings and numbers. Numeric
durations are kept in milliseconds; the source divides by 1000 when it
stores seconds, a change of unit only. -/
inductive AttrValue where
  | str (s : String)
  | num (n : Int)
deriving DecidableEq, Repr

/-- The XMLEntry record of junit.ts lines 166-171. -/
inductive XMLEntry where
  | mk (name : String) (attributes : List (String × AttrValue))
      (children : List XMLEntry) (text : Option String)

/-- Element name of an entry. -/
def XMLEntry.name : XMLEntry → String
  | XMLEntry.mk n _ _ _ => n

/-- Attribute list of an entry. -/
def XMLEntry.attributes : XMLEntry → List (String × AttrValue)
  | XMLEntry.mk _ a _ _ => a

/-- Children list of an entry. -/
def XMLEntry.children : XMLEntry → List XMLEntry
  | XMLEntry.mk _ _ c _ => c

/-- Character data of an entry. -/
def XMLEntry.text : XMLEntry → Option String
  | XMLEntry.mk _ _ _ t => t

/-- One run attempt as the JUnit reporter reads it. -/
structure ResultInfo where
  duration : Int
  stdout : List String
  stderr : List String

/-- One Test as the JUnit reporter reads it. The formattedFailure field
stands for stripAscii(formatFailure(config, test)) computed by
reporters/base, which is outside the embedded sources. -/
structure TestInfo where
  title : String
  file : String
  line : Nat
  column : Nat
  fullTitle : String
  parentFullTitle : String
  skipped : Bool
  ok : Bool
  results : List ResultInfo
  formattedFailure : String

/-- One file suite: suite.file plus the tests its findTest visits, in
visit order. -/
structure SuiteInfo where
  file : String
  tests : List TestInfo

/-- Reporter-relevant slice of the config. -/
structure JUnitConfig where
  testDir : String

namespace JUnitReporter

/-- Counters accumulated by one _buildTestSuite pass (junit.ts 82-101). -/
structure SuiteTally where
  tests : Int
  skipped : Int
  failures : Int
  duration : Int
deriving DecidableEq, Repr

/-- Embedding of the findTest loop of _buildTestSuite: each visited test
bumps tests, bumps skipped when test.skipped, bumps failures when not
test.ok, and adds its result durations. -/
def suiteCounts (s : SuiteInfo) : SuiteTally :=
  s.tests.foldl
    (fun acc t =>
      { tests := acc.tests + 1,
        skipped := acc.skipped + (if t.skipped then 1 else 0),
        failures := acc.failures + (if t.ok then 0 else 1),
        duration := acc.duration + (t.results.foldl (fun d r => d + r.duration) 0) })
    { tests := 0, skipped := 0, failures := 0, duration := 0 }

/-- Embedding of the failure child pushed by _addTestCase (junit.ts
138-147). -/
def failureEntry (t : TestInfo) : XMLEntry :=
  XMLEntry.mk "failure"
    [("message", AttrValue.str (pathBasename t.file ++ ":" ++ toString t.line ++ ":" ++
        toString t.column ++ " " ++ t.title)),
     ("type", AttrValue.str "FAILURE")]
    [] (some t.formattedFailure)

/-- Embedding of _addTestCase (junit.ts 121-163): the entries it pushes to
the enclosing testsuite children list. The testcase entry comes first; a
skipped test gets a skipped child and the function returns before emitting
anything else; otherwise a failing test gets a failure child, and the
captured stdout and stderr chunks of every result are pushed as system-out
and system-err entries beside the testcase. -/
def addTestCaseEntries (cfg : JUnitConfig) (t : TestInfo) : List XMLEntry :=
  let caseEntry := XMLEntry.mk "testcase"
    [("name", AttrValue.str t.fullTitle),
     ("classname", AttrValue.str (pathRelative cfg.testDir t.file ++ " " ++ t.parentFullTitle)),
     ("time", AttrValue.num ((t.results.map ResultInfo.duration).sum))]
    (if t.skipped then [XMLEntry.mk "skipped" [] [] none]
     else if t.ok then [] else [failureEntry t]) none
  if t.skipped then [caseEntry]
  else caseEntry ::
    t.results.flatMap (fun r =>
      r.stdout.map (fun s => XMLEntry.mk "system-out" [] [] (some s)) ++
      r.stderr.map (fun s => XMLEntry.mk "system-err" [] [] (some s)))

/-- Embedding of _buildTestSuite (junit.ts 82-119): the testsuite entry for
one file suite. -/
def buildTestSuite (cfg : JUnitConfig) (timestamp : Int) (s : SuiteInfo) : XMLEntry :=
  XMLEntry.mk "testsuite"
    [("name", AttrValue.str (pathRelative cfg.testDir s.file)),
     ("timestamp", AttrValue.num timestamp),
     ("hostname", AttrValue.str ""),
     ("tests", AttrValue.num (suiteCounts s).tests),
     ("failures", AttrValue.num (suiteCounts s).failures),
     ("skipped", AttrValue.num (suiteCounts s).skipped),
     ("time", AttrValue.num (suiteCounts s).duration),
     ("errors", AttrValue.num 0)]
    (s.tests.flatMap (addTestCaseEntries cfg)) none

/-- Embedding of onEnd (junit.ts 49-80): the testsuites root. The totals
the reporter accumulates across its _buildTestSuite calls equal the sums
of the per-suite counters in visit order. -/
def onEndRoot (cfg : JUnitConfig) (timestamp durationMs : Int) (suiteId suiteName : String)
    (suites : List SuiteInfo) : XMLEntry :=
  XMLEntry.mk "testsuites"
    [("id", AttrValue.str suiteId),
     ("name", AttrValue.str suiteName),
     ("tests", AttrValue.num ((suites.map fun s => (suiteCounts s).tests).sum)),
     ("failures", AttrValue.num ((suites.map fun s => (suiteCounts s).failures).sum)),
     ("skipped", AttrValue.num ((suites.map fun s => (suiteCounts s).skipped).sum)),
     ("errors", AttrValue.num 0),
     ("time", AttrValue.num durationMs)]
    (suites.map (buildTestSuite cfg timestamp)) none

end JUnitReporter

/-- The attribute value an entry stores under a key. -/
def lookupAttr (e : XMLEntry) (key : String) : Option AttrValue :=
  ((XMLEntry.attributes e).find? fun p => p.1 == key).map Prod.snd

/-- The numeric attribute an entry stores under a key, zero when absent. -/
def attrNum (e : XMLEntry) (key : String) : Int :=
  match lookupAttr e key with
  | some (AttrValue.num n) => n
  | _ => 0

/-- Number of entries with a given element name in a list. -/
def countNamed (n : String) (es : List XMLEntry) : Nat :=
  (es.filter fun e => XMLEntry.name e == n).length

/-- A trivially passing test with the given title in the given file. -/
def passingTest (file title : String) : TestInfo :=
  { title := title, file := file, line := 2, column := 7, fullTitle := title,
    parentFullTitle := "", skipped := false, ok := true,
    results := [{ duration := 0, stdout := [], stderr := [] }], formattedFailure := "" }

/-- Config of the two-file JUnit scenario. -/
def cfgEx : JUnitConfig := { testDir := "/dir" }

/-- File a.test.js of the scenario, with the passing test named one. -/
def suiteAEx : SuiteInfo :=
  { file := "/dir/a.test.js", tests := [passingTest "/dir/a.test.js" "one"] }

/-- File b.test.js of the scenario, with the passing test named two. -/
def suiteBEx : SuiteInfo :=
  { file := "/dir/b.test.js", tests := [passingTest "/dir/b.test.js" "two"] }

/-- A skipped test whose last run failed, with captured output. -/
def skippedFailTest : TestInfo :=
  { title := "skipped", file := "/dir/t.spec.ts", line := 6, column := 7,
    fullTitle := "failing suite skipped", parentFullTitle := "failing suite",
    skipped := true, ok := false,
    results := [{ duration := 0, stdout := ["out"], stderr := [] }],
    formattedFailure := "x" }

/-! ## XML escaping (junit.ts lines 185-198)

The ansiControlSequence regular expression of line 187 is embedded as a
backtracking matcher: after the lead byte and a longest-first run of
intermediate characters, the bell-terminated branch is tried before the
branch ending in a final byte, quantifiers greedy with backtracking, and
the global replacement rescans right after each removed match. -/

/-- Intermediate characters allowed after the lead byte. -/
def isCsiIntermediate (c : Char) : Bool :=
  c == '[' || c == ']' || c == '(' || c == ')' || c == '#' || c == ';' || c == '?'

/-- Alphanumeric class of the bell-terminated branch. -/
def isAnsiAlnum (c : Char) : Bool :=
  c.isAlpha || c.isDigit

/-- Body class of the semicolon groups in the bell-terminated branch. -/
def isOscBodyChar (c : Char) : Bool :=
  c == '-' || c.isAlpha || c.isDigit || c == '/' || c == '#' || c == '&' ||
  c == '.' || c == ':' || c == '=' || c == '?' || c == '%' || c == '@' ||
  c == '~' || c == '_'

/-- Final bytes accepted by the second branch of the regex. -/
def isAnsiFinalByte (c : Char) : Bool :=
  c.isDigit || ('A' ≤ c && c ≤ 'P') || ('R' ≤ c && c ≤ 'T') || c == 'Z' ||
  c == 'c' || ('f' ≤ c && c ≤ 'n') || c == 't' || c == 'q' || c == 'r' ||
  c == 'y' || c == '=' || c == '>' || c == '<' || c == '~'

/-- Semicolon groups of the bell-terminated branch, ending at the bell.
The classes involved are disjoint from the separators, so greedy scanning
needs no backtracking here. Fuel is bounded by the scanned length. -/
def ansiBelGroups : Nat → List Char → Option (List Char)
  | _, [] => none
  | 0, _ => none
  | fuel + 1, c :: rest =>
    if c == '\x07' then some rest
    else if c == ';' then ansiBelGroups fuel (rest.dropWhile isOscBodyChar)
    else none

/-- The bell-terminated branch: alphanumerics, semicolon groups, bell. -/
def ansiBelTail (fuel : Nat) (l : List Char) : Option (List Char) :=
  ansiBelGroups fuel (l.dropWhile isAnsiAlnum)

/-- One final byte. -/
def ansiFinalByteTail : List Char → Option (List Char)
  | c :: rest => if isAnsiFinalByte c then some rest else none
  | [] => none

/-- Greedy match of up to maxCount digits, longest first, backtracking
into the continuation. -/
def ansiDigits : Nat → List Char → (List Char → Option (List Char)) → Option (List Char)
  | 0, l, k => k l
  | maxCount + 1, l, k =>
    match l with
    | c :: rest =>
      if c.isDigit then (ansiDigits maxCount rest k).orElse (fun _ => k (c :: rest))
      else k (c :: rest)
    | [] => k []

/-- Greedy match of semicolon-digit groups, longest first, backtracking
into the continuation. Fuel is bounded by the scanned length. -/
def ansiSemiGroups : Nat → List Char → (List Char → Option (List Char)) → Option (List Char)
  | 0, l, k => k l
  | fuel + 1, l, k =>
    match l with
    | c :: rest =>
      if c == ';' then
        (ansiDigits 4 rest (fun r => ansiSemiGroups fuel r k)).orElse (fun _ => k (c :: rest))
      else k (c :: rest)
    | [] => k []

/-- The branch ending in a final byte: an optional run of one to four
digits with semicolon-digit groups, tried greedily first, then the final
byte. -/
def ansiNumTail (fuel : Nat) (l : List Char) : Option (List Char) :=
  (match l with
   | c :: rest =>
     if c.isDigit then ansiDigits 3 rest (fun r => ansiSemiGroups fuel r ansiFinalByteTail)
     else none
   | [] => none).orElse (fun _ => ansiFinalByteTail l)

/-- The alternation after lead byte and intermediates: the bell branch is
the left alternative. -/
def ansiTailMatch (fuel : Nat) (l : List Char) : Option (List Char) :=
  (ansiBelTail fuel l).orElse (fun _ => ansiNumTail fuel l)

/-- Longest-first consumption of intermediate characters, backtracking to
shorter prefixes when the alternation does not match. -/
def ansiAfterLead : List Char → Option (List Char)
  | [] => none
  | c :: rest =>
    if isCsiIntermediate c then
      (ansiAfterLead rest).orElse (fun _ => ansiTailMatch (c :: rest).length (c :: rest))
    else ansiTailMatch (c :: rest).length (c :: rest)

/-- Global replacement by the empty string: scan left to right, drop each
match of the regex and continue right after it. Fuel is bounded by the
scanned length, each match consuming at least the lead byte. -/
def ansiStripGo : Nat → List Char → List Char
  | _, [] => []
  | 0, l => l
  | fuel + 1, c :: rest =>
    if c == '\x1b' || c == '\x9b' then
      match ansiAfterLead rest with
      | some r => ansiStripGo fuel r
      | none => c :: ansiStripGo fuel rest
    else c :: ansiStripGo fuel rest

/-- Removal of ANSI control sequences, as text.replace with the global
ansiControlSequence regex and the empty replacement. -/
def ansiStrip (l : List Char) : List Char :=
  ansiStripGo l.length l

/-- The replacement map of the escape callback (junit.ts line 193). -/
def entityFor (c : Char) : String :=
  if c == '&' then "&amp;"
  else if c == '"' then "&quot;"
  else if c == '<' then "&lt;"
  else if c == '>' then "&gt;"
  else String.mk [c]

/-- The character class of the escape regex (junit.ts line 192): ampersand
and less-than for character data; ampersand, quote, less-than and
greater-than for attribute values. -/
def escapeClass (isCharacterData : Bool) (c : Char) : Bool :=
  if isCharacterData then c == '&' || c == '<'
  else c == '&' || c == '"' || c == '<' || c == '>'

/-- The global entity replacement of junit.ts line 193. -/
def escapeEntities (isCharacterData : Bool) (l : List Char) : List Char :=
  l.flatMap fun c => if escapeClass isCharacterData c then (entityFor c).data else [c]

/-- The global rewrite of ]]> into ]]&gt; of junit.ts line 195. -/
def replaceCdataEnd : List Char → List Char
  | ']' :: ']' :: '>' :: rest => ']' :: ']' :: '&' :: 'g' :: 't' :: ';' :: replaceCdataEnd rest
  | c :: rest => c :: replaceCdataEnd rest
  | [] => []

/-- The discouragedXMLCharacters class of junit.ts line 186. -/
def isDiscouragedXMLChar (c : Char) : Bool :=
  ('\x01' ≤ c && c ≤ '\x08') || ('\x0b' ≤ c && c ≤ '\x0c') ||
  ('\x0e' ≤ c && c ≤ '\x1f') || ('\x7f' ≤ c && c ≤ '\u0084') ||
  ('\u0086' ≤ c && c ≤ '\u009f')

/-- The global removal of the discouraged characters of junit.ts line
196. -/
def stripDiscouraged (l : List Char) : List Char :=
  l.filter fun c => !(isDiscouragedXMLChar c)

/-- Embedding of escape (junit.ts lines 189-198): optional ANSI stripping
first, entity replacement by context, the ]]> rewrite for character data,
then removal of the forbidden control characters. -/
def escape (text : String) (stripANSIControlSequences isCharacterData : Bool) : String :=
  let t1 := if stripANSIControlSequences then ansiStrip text.data else text.data
  let t2 := escapeEntities isCharacterData t1
  let t3 := if isCharacterData then replaceCdataEnd t2 else t2
  String.mk (stripDiscouraged t3)

/-- String rendering of an attribute value, as the template literal
does. -/
def attrToString : AttrValue → String
  | AttrValue.str s => s
  | AttrValue.num n => toString n

mutual

/-- Embedding of serializeXML (junit.ts lines 173-183): attribute values
are escaped as attribute text, entry text as character data. -/
def serializeXML (entry : XMLEntry) (stripANSIControlSequences : Bool) : List String :=
  match entry with
  | XMLEntry.mk n attrs children txt =>
    ("<" ++ n ++
      (if (attrs.map fun p =>
          p.1 ++ "=\"" ++ escape (attrToString p.2) stripANSIControlSequences false ++ "\"").isEmpty
        then "" else " ") ++
      String.intercalate " " (attrs.map fun p =>
        p.1 ++ "=\"" ++ escape (attrToString p.2) stripANSIControlSequences false ++ "\"") ++
      ">") ::
      (serializeChildren children stripANSIControlSequences ++
        (match txt with
         | some s => [escape s stripANSIControlSequences true]
         | none => []) ++
        ["</" ++ n ++ ">"])

/-- Serialization of a children list in order. -/
def serializeChildren (cs : List XMLEntry) (stripANSIControlSequences : Bool) : List String :=
  match cs with
  | [] => []
  | c :: rest =>
    serializeXML c stripANSIControlSequences ++ serializeChildren rest stripANSIControlSequences

end

/-- Entity replacement as the claim words it, character by character over a
class of characters to replace. -/
def replaceEntitiesSpec (cls : List Char) : List Char → List Char
  | [] => []
  | c :: rest => (if c ∈ cls then (entityFor c).data else [c]) ++ replaceEntitiesSpec cls rest

/-- Removal of the XML-forbidden control characters, character by
character. -/
def removeForbiddenSpec : List Char → List Char
  | [] => []
  | c :: rest =>
    if isDiscouragedXMLChar c then removeForbiddenSpec rest
    else c :: removeForbiddenSpec rest

/-- The escape step exactly as claim C6 states it: in attribute values and
in character data alike, each of ampersand, less-than, greater-than and
quote becomes its XML entity, the XML-forbidden control characters are
stripped, and ANSI sequences are stripped first when configured. -/
def escapeClaimModel (text : String) (stripANSIControlSequences _isCharacterData : Bool) : String :=
  let t1 := if stripANSIControlSequences then ansiStrip text.data else text.data
  String.mk (removeForbiddenSpec (replaceEntitiesSpec ['&', '<', '>', '"'] t1))

/-- The escape step as amended: attribute values escape ampersand, quote,
less-than and greater-than; character data escapes only ampersand and
less-than and writes ]]> as ]]&gt;; both strip the XML-forbidden control
characters, and ANSI sequences are stripped first when configured. -/
def escapeAmendedModel (text : String) (stripANSIControlSequences isCharacterData : Bool) : String :=
  let t1 := if stripANSIControlSequences then ansiStrip text.data else text.data
  if isCharacterData then
    String.mk (removeForbiddenSpec (replaceCdataEnd (replaceEntitiesSpec ['&', '<'] t1)))
  else
    String.mk (removeForbiddenSpec (replaceEntitiesSpec ['&', '"', '<', '>'] t1))

end Folio

namespace Folio

/-- C1: runTests maps the runner result to the process exit code: sigint
gives 130; forbid-only, no-tests and failed each give 1; passed gives 0. -/
theorem runTests_exit_code :
    exitCodeOfResult RunResult.sigint = 130 ∧
    exitCodeOfResult RunResult.forbidOnly = 1 ∧
    exitCodeOfResult RunResult.noTests = 1 ∧
    exitCodeOfResult RunResult.failed = 1 ∧
    exitCodeOfResult RunResult.passed = 0 := by
  decide

/-- Membership in the shard filter started at offset k: exactly the list
elements whose absolute index has the selected residue. -/
theorem mem_shardFilterGo (sh : Shard) (x : α) :
    ∀ (tests : List α) (k : Nat),
      x ∈ shardFilterGo sh k tests ↔
        ∃ i : Nat, tests.get? i = some x ∧ ((k + i : Nat) : Int) % sh.total = sh.current := by
  intro tests
  induction tests with
  | nil =>
    intro k
    simp [shardFilterGo]
  | cons y ys ih =>
    intro k
    by_cases hc : (k : Int) % sh.total = sh.current
    · simp only [shardFilterGo, if_pos hc, List.mem_cons, ih (k + 1)]
      constructor
      · rintro (rfl | ⟨j, hj, hmod⟩)
        · exact ⟨0, rfl, by simpa using hc⟩
        · refine ⟨j + 1, by simpa using hj, ?_⟩
          have : k + 1 + j = k + (j + 1) := by omega
          rw [this] at hmod
          exact hmod
      · rintro ⟨i, hi, hmod⟩
        cases i with
        | zero =>
          left
          simpa using hi.symm
        | succ j =>
          right
          refine ⟨j, by simpa using hi, ?_⟩
          have : k + 1 + j = k + (j + 1) := by omega
          rw [this]
          exact hmod
    · simp only [shardFilterGo, if_neg hc, ih (k + 1)]
      constructor
      · rintro ⟨j, hj, hmod⟩
        refine ⟨j + 1, by simpa using hj, ?_⟩
        have : k + 1 + j = k + (j + 1) := by omega
        rw [this] at hmod
        exact hmod
      · rintro ⟨i, hi, hmod⟩
        cases i with
        | zero =>
          exfalso
          apply hc
          simpa using hmod
        | succ j =>
          refine ⟨j, by simpa using hi, ?_⟩
          have : k + 1 + j = k + (j + 1) := by omega
          rw [this]
          exact hmod

/-- C4: a --shard c/t argument yields config.shard with current = c - 1 and
total = t, and the shard filter keeps exactly the tests whose global index
i satisfies i % t == c - 1. -/
theorem shard_option_selects_residue {α : Type} (s a b : String) (c t : Nat) (tests : List α)
    (hsplit : jsSplit '/' s = [a, b])
    (ha : parseIntDecimal a = some c) (hb : parseIntDecimal b = some t) :
    parseShard s = some { current := (c : Int) - 1, total := (t : Int) } ∧
    ∀ x : α, x ∈ shardFilter { current := (c : Int) - 1, total := (t : Int) } tests ↔
      ∃ i : Nat, tests.get? i = some x ∧ (i : Int) % (t : Int) = (c : Int) - 1 := by
  constructor
  · unfold parseShard
    rw [hsplit]
    simp [ha, hb]
  · intro x
    unfold shardFilter
    rw [mem_shardFilterGo]
    simp

/-- C4 witness: --shard 3/5 keeps exactly the indices congruent to 2 mod 5;
on an eight-element list the element at index 2 is kept. -/
theorem shard_option_selects_residue_witness :
    parseShard "3/5" = some { current := 2, total := 5 } ∧
    (30 : Nat) ∈ shardFilter { current := 2, total := 5 } [10, 20, 30, 40, 50, 60, 70, 80] := by
  have h := shard_option_selects_residue "3/5" "3" "5" 3 5
    [10, 20, 30, 40, 50, 60, 70, 80] rfl rfl rfl
  refine ⟨by simpa using h.1, ?_⟩
  have hm := (h.2 30).mpr ⟨2, rfl, by decide⟩
  simpa using hm

/-- Running a hook list appends exactly its labels to the log, whatever
errors occur. -/
theorem runHooks_log (hs : List Hook) :
    ∀ st : ExecState, (runHooks st hs).log = st.log ++ labelsOf hs := by
  induction hs with
  | nil =>
    intro st
    simp [runHooks, labelsOf]
  | cons h rest ih =>
    intro st
    simp [runHooks, labelsOf] at ih ⊢
    rw [ih]
    simp [runHook]

/-- Running hooks that do not throw preserves an error-free state. -/
theorem runHooks_firstError_none (hs : List Hook) :
    ∀ st : ExecState, st.firstError = none → (hs.all fun h => !h.2) = true →
      (runHooks st hs).firstError = none := by
  induction hs with
  | nil =>
    intro st hst _
    simpa [runHooks] using hst
  | cons h rest ih =>
    intro st hst hall
    simp only [List.all_cons, Bool.and_eq_true, Bool.not_eq_true'] at hall
    simp only [runHooks, List.foldl_cons]
    exact ih _ (by simp [runHook, hst, hall.1]) (by simp [List.all_eq_true] at hall ⊢; exact hall.2)

/-- C2: with all beforeAll and beforeEach hooks succeeding, a test bound to
an env inside nested suites logs, in order: env beforeAll, user beforeAll,
env beforeEach, user beforeEach outermost-first, the test body, user
afterEach innermost-first, env afterEach after all user afterEach, user
afterAll, env afterAll; every afterEach and afterAll label appears no
matter which of the body, afterEach or afterAll hooks threw. -/
theorem env_and_user_hook_order (env : EnvDecl) (suites : List SuiteDecl) (body : Hook)
    (hba : ((env.beforeAll ++ (suites.map SuiteDecl.beforeAll).flatten).all fun h => !h.2) = true)
    (hbe : ((env.beforeEach ++ (suites.map SuiteDecl.beforeEach).flatten).all fun h => !h.2) = true) :
    (runTestInWorker env suites body).log =
      labelsOf env.beforeAll ++ labelsOf (suites.map SuiteDecl.beforeAll).flatten ++
      labelsOf env.beforeEach ++ labelsOf (suites.map SuiteDecl.beforeEach).flatten ++
      [body.1] ++
      labelsOf ((suites.map SuiteDecl.afterEach).flatten).reverse ++
      labelsOf env.afterEach.reverse ++
      labelsOf ((suites.map SuiteDecl.afterAll).flatten).reverse ++
      labelsOf env.afterAll.reverse := by
  unfold runTestInWorker
  have hfe1 : (runHooks { log := [], firstError := none }
      (env.beforeAll ++ (suites.map SuiteDecl.beforeAll).flatten)).firstError = none :=
    runHooks_firstError_none _ _ rfl hba
  have hfe2 : (runHooks (runHooks { log := [], firstError := none }
      (env.beforeAll ++ (suites.map SuiteDecl.beforeAll).flatten))
      (env.beforeEach ++ (suites.map SuiteDecl.beforeEach).flatten)).firstError = none :=
    runHooks_firstError_none _ _ hfe1 hbe
  rw [runHooks_log, runHooks_log]
  rw [hfe2]
  simp only [Option.isSome_none, Bool.false_eq_true, if_false]
  simp [runHook, runHooks_log, labelsOf, List.map_append, List.reverse_append, List.append_assoc]

/-- C2 witness: the spec scenario logs +w, beforeAll-17, +t, beforeEach-42,
test, afterEach-42, -t, afterAll-17, then the env afterAll. -/
theorem env_and_user_hook_order_witness :
    (runTestInWorker envEx [suiteEx] ("test", false)).log =
      ["+w", "beforeAll-17", "+t", "beforeEach-42", "test",
       "afterEach-42", "-t", "afterAll-17", "-w"] := by
  have h := env_and_user_hook_order envEx [suiteEx] ("test", false) (by decide) (by decide)
  rw [h]
  rfl

/-- C3: whenever both a skip and an expected-failure mark apply to a test
that did not time out, the computed status is skipped and never failed,
whether or not the body produced an error. -/
theorem skip_dominates_fail :
    ∀ hasError : Bool,
      computeStatus false true hasError true = TestStatus.skipped ∧
      computeStatus false true hasError true ≠ TestStatus.failed := by
  decide

/-- C7: getSasToken returns before any data event has run, so its returned
value is always undefined rather than the fetched sasUri, and onBegin
caches undefined in both token fields; the fetched value only exists once
the pending events are delivered, after the return. -/
theorem service_sas_token_not_fetched_before_return (writeUri readUri : String) :
    (ServiceReporter.getSasToken writeUri).1 = none ∧
    ServiceReporter.deliverPendingData (ServiceReporter.getSasToken writeUri) = some writeUri ∧
    ServiceReporter.onBeginCachedTokens writeUri readUri = (none, none) := by
  exact ⟨rfl, rfl, rfl⟩

/-- C8: the per-test artifact directory replaces only the first space of
the full title with a dash, not every space as the claim states: for the
full title consisting of the words suite, my, test, the code produces the
segment suite-my test while full slugging produces suite-my-test. -/
theorem service_outputDir_slug_first_space_only :
    ServiceReporter.getTestOutputDir
        { testDir := "/repo/tests", outputDir := "test-results" }
        { file := "/repo/tests/a.spec.ts", fullTitle := "suite my test",
          browserName := "chromium" } =
      "test-results/a/suite-my test/chromium" ∧
    slugAllSpaces "suite my test" = "suite-my-test" ∧
    ServiceReporter.getTestOutputDir
        { testDir := "/repo/tests", outputDir := "test-results" }
        { file := "/repo/tests/a.spec.ts", fullTitle := "suite my test",
          browserName := "chromium" } ≠
      "test-results/a/suite-my-test/chromium" := by
  refine ⟨rfl, rfl, ?_⟩
  decide

/-- Counting a name distributes over list append. -/
theorem countNamed_append (n : String) (a b : List XMLEntry) :
    countNamed n (a ++ b) = countNamed n a + countNamed n b := by
  simp [countNamed, List.filter_append]

/-- The stdout and stderr entries emitted beside a testcase all carry the
names system-out or system-err. -/
theorem sysEntries_names (rs : List ResultInfo) (e : XMLEntry)
    (he : e ∈ rs.flatMap (fun r =>
      r.stdout.map (fun s => XMLEntry.mk "system-out" [] [] (some s)) ++
      r.stderr.map (fun s => XMLEntry.mk "system-err" [] [] (some s)))) :
    XMLEntry.name e = "system-out" ∨ XMLEntry.name e = "system-err" := by
  simp only [List.mem_flatMap, List.mem_append, List.mem_map] at he
  obtain ⟨r, _, (⟨s, _, rfl⟩ | ⟨s, _, rfl⟩)⟩ := he
  · exact Or.inl rfl
  · exact Or.inr rfl

/-- Counting a name over a cons counts the head when it matches. -/
theorem countNamed_cons (n : String) (e : XMLEntry) (rest : List XMLEntry) :
    countNamed n (e :: rest) =
      (if XMLEntry.name e == n then 1 else 0) + countNamed n rest := by
  unfold countNamed
  rw [List.filter_cons]
  by_cases h : (XMLEntry.name e == n) = true
  · simp [h, Nat.add_comm]
  · simp [h]

/-- Each _addTestCase call pushes exactly one testcase entry. -/
theorem countNamed_testcase_addTestCase (cfg : JUnitConfig) (t : TestInfo) :
    countNamed "testcase" (JUnitReporter.addTestCaseEntries cfg t) = 1 := by
  have hzero : countNamed "testcase"
      (t.results.flatMap (fun r =>
        r.stdout.map (fun s => XMLEntry.mk "system-out" [] [] (some s)) ++
        r.stderr.map (fun s => XMLEntry.mk "system-err" [] [] (some s)))) = 0 := by
    unfold countNamed
    rw [List.length_eq_zero, List.filter_eq_nil_iff]
    intro e he
    rcases sysEntries_names t.results e he with h | h <;> simp [h]
  unfold JUnitReporter.addTestCaseEntries
  by_cases hs : t.skipped
  · simp [hs, countNamed, XMLEntry.name]
  · simp only [hs, if_false, Bool.false_eq_true]
    rw [countNamed_cons, hzero]
    simp [XMLEntry.name]

/-- The testsuite built for a file holds one testcase entry per test. -/
theorem countNamed_testcase_buildTestSuite (cfg : JUnitConfig) (timestamp : Int)
    (s : SuiteInfo) :
    countNamed "testcase" (XMLEntry.children (JUnitReporter.buildTestSuite cfg timestamp s)) =
      s.tests.length := by
  show countNamed "testcase" (s.tests.flatMap (JUnitReporter.addTestCaseEntries cfg)) =
    s.tests.length
  induction s.tests with
  | nil => rfl
  | cons t rest ih =>
    rw [List.flatMap_cons, countNamed_append, countNamed_testcase_addTestCase, ih,
      List.length_cons, Nat.add_comm]

/-- C5: the JUnit report has one testsuite child of the root per test
file, one testcase per test, root tests, failures and skipped attributes
equal to the sums over the testsuite children while errors is 0; and the
concrete two-passing-file scenario yields a root with tests 2, failures 0
and two testsuite children named a.test.js and b.test.js. -/
theorem junit_root_aggregates (cfg : JUnitConfig) (timestamp durationMs : Int)
    (suiteId suiteName : String) (suites : List SuiteInfo) :
    (XMLEntry.children (JUnitReporter.onEndRoot cfg timestamp durationMs suiteId suiteName suites)).length =
      suites.length ∧
    ((XMLEntry.children (JUnitReporter.onEndRoot cfg timestamp durationMs suiteId suiteName suites)).all
        fun e => XMLEntry.name e == "testsuite") = true ∧
    (suites.all fun s =>
        countNamed "testcase" (XMLEntry.children (JUnitReporter.buildTestSuite cfg timestamp s)) ==
          s.tests.length) = true ∧
    attrNum (JUnitReporter.onEndRoot cfg timestamp durationMs suiteId suiteName suites) "tests" =
      ((XMLEntry.children (JUnitReporter.onEndRoot cfg timestamp durationMs suiteId suiteName suites)).map
        fun c => attrNum c "tests").sum ∧
    attrNum (JUnitReporter.onEndRoot cfg timestamp durationMs suiteId suiteName suites) "failures" =
      ((XMLEntry.children (JUnitReporter.onEndRoot cfg timestamp durationMs suiteId suiteName suites)).map
        fun c => attrNum c "failures").sum ∧
    attrNum (JUnitReporter.onEndRoot cfg timestamp durationMs suiteId suiteName suites) "skipped" =
      ((XMLEntry.children (JUnitReporter.onEndRoot cfg timestamp durationMs suiteId suiteName suites)).map
        fun c => attrNum c "skipped").sum ∧
    attrNum (JUnitReporter.onEndRoot cfg timestamp durationMs suiteId suiteName suites) "errors" = 0 ∧
    attrNum (JUnitReporter.onEndRoot cfgEx 0 0 "" "" [suiteAEx, suiteBEx]) "tests" = 2 ∧
    attrNum (JUnitReporter.onEndRoot cfgEx 0 0 "" "" [suiteAEx, suiteBEx]) "failures" = 0 ∧
    ((XMLEntry.children (JUnitReporter.onEndRoot cfgEx 0 0 "" "" [suiteAEx, suiteBEx])).map
        fun c => lookupAttr c "name") =
      [some (AttrValue.str "a.test.js"), some (AttrValue.str "b.test.js")] ∧
    ((XMLEntry.children (JUnitReporter.onEndRoot cfgEx 0 0 "" "" [suiteAEx, suiteBEx])).map
        XMLEntry.name) = ["testsuite", "testsuite"] := by
  refine ⟨?_, ?_, ?_, ?_, ?_, ?_, ?_, ?_, ?_, ?_, ?_⟩
  · simp [JUnitReporter.onEndRoot, XMLEntry.children]
  · simp [JUnitReporter.onEndRoot, JUnitReporter.buildTestSuite, XMLEntry.children,
      List.all_eq_true, XMLEntry.name]
  · simp only [List.all_eq_true]
    intro s _
    rw [countNamed_testcase_buildTestSuite]
    exact beq_self_eq_true _
  · show ((suites.map fun s => (JUnitReporter.suiteCounts s).tests).sum) = _
    rw [show XMLEntry.children (JUnitReporter.onEndRoot cfg timestamp durationMs suiteId suiteName suites) =
      suites.map (JUnitReporter.buildTestSuite cfg timestamp) from rfl]
    rw [List.map_map]
    rfl
  · show ((suites.map fun s => (JUnitReporter.suiteCounts s).failures).sum) = _
    rw [show XMLEntry.children (JUnitReporter.onEndRoot cfg timestamp durationMs suiteId suiteName suites) =
      suites.map (JUnitReporter.buildTestSuite cfg timestamp) from rfl]
    rw [List.map_map]
    rfl
  · show ((suites.map fun s => (JUnitReporter.suiteCounts s).skipped).sum) = _
    rw [show XMLEntry.children (JUnitReporter.onEndRoot cfg timestamp durationMs suiteId suiteName suites) =
      suites.map (JUnitReporter.buildTestSuite cfg timestamp) from rfl]
    rw [List.map_map]
    rfl
  · rfl
  · rfl
  · rfl
  · rfl
  · rfl

/-- C10: the system-out and system-err entries _addTestCase emits are
siblings of the testcase entry in the testsuite children list, never
nested below the testcase, whose own children are only skipped or failure
entries without further children; and a skipped test yields exactly one
testcase entry with exactly one skipped child and no failure child even
when ok() is false. -/
theorem junit_stdio_siblings_and_skipped (cfg : JUnitConfig) (t : TestInfo) :
    (((JUnitReporter.addTestCaseEntries cfg t).drop 1).all fun e =>
        XMLEntry.name e == "system-out" || XMLEntry.name e == "system-err") = true ∧
    ((JUnitReporter.addTestCaseEntries cfg t).head?.map XMLEntry.name) = some "testcase" ∧
    ((JUnitReporter.addTestCaseEntries cfg t).head?.map fun e =>
        (XMLEntry.children e).all fun c =>
          (XMLEntry.name c == "skipped" || XMLEntry.name c == "failure") &&
            (XMLEntry.children c).isEmpty) = some true ∧
    (t.skipped = true →
      JUnitReporter.addTestCaseEntries cfg t =
        [XMLEntry.mk "testcase"
          [("name", AttrValue.str t.fullTitle),
           ("classname", AttrValue.str (pathRelative cfg.testDir t.file ++ " " ++ t.parentFullTitle)),
           ("time", AttrValue.num ((t.results.map ResultInfo.duration).sum))]
          [XMLEntry.mk "skipped" [] [] none] none]) := by
  unfold JUnitReporter.addTestCaseEntries
  by_cases hs : t.skipped
  · refine ⟨?_, ?_, ?_, ?_⟩
    · simp [hs]
    · simp [hs, XMLEntry.name]
    · simp [hs, XMLEntry.children, XMLEntry.name]
    · intro _
      simp [hs]
  · refine ⟨?_, ?_, ?_, ?_⟩
    · simp only [hs, if_false, Bool.false_eq_true, List.drop_succ_cons, List.drop_zero,
        List.all_eq_true]
      intro e he
      rcases sysEntries_names t.results e he with h | h <;> simp [h]
    · simp [hs, XMLEntry.name]
    · by_cases ho : t.ok
      · simp [hs, ho, XMLEntry.children]
      · simp [hs, ho, XMLEntry.children, XMLEntry.name, JUnitReporter.failureEntry]
    · intro hcontra
      exact absurd hcontra hs

/-- C10 witness: a skipped test whose last run failed produces exactly the
testcase entry with one skipped child and no failure element. -/
theorem junit_stdio_siblings_and_skipped_witness :
    JUnitReporter.addTestCaseEntries cfgEx skippedFailTest =
      [XMLEntry.mk "testcase"
        [("name", AttrValue.str "failing suite skipped"),
         ("classname", AttrValue.str "t.spec.ts failing suite"),
         ("time", AttrValue.num 0)]
        [XMLEntry.mk "skipped" [] [] none] none] := by
  have h := (junit_stdio_siblings_and_skipped cfgEx skippedFailTest).2.2.2 rfl
  exact h.trans rfl

/-- C9: _getTestResultBlobs pushes onto a list variable that was never
initialized, so every invocation throws a TypeError instead of returning
the one-element list of the testResults.zip uri. -/
theorem service_testResultBlobs_push_throws (githubRunId readSasToken : String) :
    ServiceReporter.getTestResultBlobs githubRunId readSasToken =
      Except.error "TypeError: Cannot read properties of undefined (reading push)" := by
  rfl

/-- The character-by-character removal of forbidden characters agrees with
the filter form used by the source embedding. -/
theorem removeForbiddenSpec_eq (l : List Char) :
    removeForbiddenSpec l = stripDiscouraged l := by
  induction l with
  | nil => rfl
  | cons c rest ih =>
    simp only [removeForbiddenSpec, stripDiscouraged, List.filter_cons] at ih ⊢
    by_cases h : isDiscouragedXMLChar c = true
    · simp [h, ih]
    · simp [h, ih]

/-- The character-by-character entity replacement over the character data
class agrees with the source embedding of the escape regex. -/
theorem replaceEntitiesSpec_cdata (l : List Char) :
    replaceEntitiesSpec ['&', '<'] l = escapeEntities true l := by
  induction l with
  | nil => rfl
  | cons c rest ih =>
    simp only [replaceEntitiesSpec, escapeEntities, List.flatMap_cons] at ih ⊢
    rw [ih]
    congr 1
    by_cases h1 : c = '&'
    · simp [h1, escapeClass]
    · by_cases h2 : c = '<'
      · simp [h2, escapeClass]
      · simp [h1, h2, escapeClass]

/-- The character-by-character entity replacement over the attribute class
agrees with the source embedding of the escape regex. -/
theorem replaceEntitiesSpec_attr (l : List Char) :
    replaceEntitiesSpec ['&', '"', '<', '>'] l = escapeEntities false l := by
  induction l with
  | nil => rfl
  | cons c rest ih =>
    simp only [replaceEntitiesSpec, escapeEntities, List.flatMap_cons] at ih ⊢
    rw [ih]
    congr 1
    by_cases h1 : c = '&'
    · simp [h1, escapeClass]
    · by_cases h2 : c = '"'
      · simp [h2, escapeClass]
      · by_cases h3 : c = '<'
        · simp [h3, escapeClass]
        · by_cases h4 : c = '>'
          · simp [h4, escapeClass]
          · simp [h1, h2, h3, h4, escapeClass]

/-- C6 amended: on every string, escape behaves as the amended description
says — attribute values escape ampersand, quote, less-than and
greater-than; character data escapes only ampersand and less-than and
rewrites ]]> to ]]&gt;; both strip the XML-forbidden control characters,
with ANSI sequences stripped first when configured. -/
theorem escape_matches_amended_claim (text : String) (strip isCharacterData : Bool) :
    escape text strip isCharacterData = escapeAmendedModel text strip isCharacterData := by
  cases isCharacterData
  · show String.mk (stripDiscouraged (escapeEntities false
        (if strip then ansiStrip text.data else text.data))) = _
    unfold escapeAmendedModel
    simp only [if_false, Bool.false_eq_true]
    rw [replaceEntitiesSpec_attr, removeForbiddenSpec_eq]
  · show String.mk (stripDiscouraged (replaceCdataEnd (escapeEntities true
        (if strip then ansiStrip text.data else text.data)))) = _
    unfold escapeAmendedModel
    simp only [if_true]
    rw [replaceEntitiesSpec_cdata, removeForbiddenSpec_eq]

/-- C6 counterexample: escaping the one-character string greater-than as
character data leaves it unchanged, while the claim as stated demands its
entity; so the claim fails on character data. -/
theorem escape_cdata_gt_counterexample :
    escape ">" false true = ">" ∧
    escapeClaimModel ">" false true = "&gt;" ∧
    escape ">" false true ≠ escapeClaimModel ">" false true := by
  refine ⟨rfl, rfl, ?_⟩
  decide

end Folio
